import Mathlib

/-!
Verification of the Rift bug-detection core (`src/rift/agent.py`).

The Python source is shallowly embedded: pure fragments become Lean
functions over `List Char` / `String`, the error dictionaries become a
structure `AnalysisError`, and the six bug categories become the
inductive type `BugType`.  External collaborators (CPython's
`compile`/`tokenize`, subprocess output of `py_compile`, `ruff`,
`pyflakes` and the dynamic runner) are supplied as explicit oracle
arguments or as already-parsed record streams, exactly at the boundary
where `agent.py` consumes their output.
-/

/-! ## Basic character and list utilities mirroring Python semantics -/

/-- Python `\s` (ASCII subset): the whitespace characters recognised by
`str.strip`, `str.rstrip` and the `\s` regex class. -/
def isPyWs (c : Char) : Bool :=
  c = ' ' || c = '\t' || c = '\n' || c = '\r' || c = '\x0b' || c = '\x0c'

/-- Python regex `\w` (ASCII subset): letters, digits and underscore. -/
def isWordChar (c : Char) : Bool :=
  c.isAlphanum || c = '_'

/-- `leadsWith pat l` is true when `pat` is an initial segment of `l`
(the anchored part of a `re.match`). -/
def leadsWith : List Char → List Char → Bool
  | [], _ => true
  | _ :: _, [] => false
  | a :: as, b :: bs => a = b && leadsWith as bs

/-- `anySuffix p l` is true when `p` holds of some suffix of `l`;
this is how `re.search` tries every start position. -/
def anySuffix (p : List Char → Bool) : List Char → Bool
  | [] => p []
  | c :: rest => p (c :: rest) || anySuffix p rest

/-- Python substring test `pat in s`. -/
def containsSub (s pat : String) : Bool :=
  anySuffix (fun t => leadsWith pat.data t) s.data

/-- Python `str.upper` (ASCII behaviour, which covers every keyword in
the agent's tables). -/
def pyUpper (s : String) : String :=
  String.mk (s.data.map Char.toUpper)

/-- Python `str.strip()` on character lists. -/
def pyStripL (l : List Char) : List Char :=
  ((l.dropWhile isPyWs).reverse.dropWhile isPyWs).reverse

/-- Python `str.strip()`. -/
def pyStrip (s : String) : String :=
  String.mk (pyStripL s.data)

/-- Python `str.rstrip()` (whitespace only). -/
def pyRstrip (l : List Char) : List Char :=
  (l.reverse.dropWhile isPyWs).reverse

/-- Python `str.rstrip('\n')`. -/
def pyRstripNl (s : String) : String :=
  String.mk ((s.data.reverse.dropWhile (fun c => c = '\n')).reverse)

/-- Python `s[:n]` truncation. -/
def pyTrunc (n : Nat) (s : String) : String :=
  String.mk (s.data.take n)

/-- Fuel-driven worker for `stripAll`; the fuel is the length of the
scanned list, so the recursion is structural and kernel-reducible. -/
def stripAllAux (pat : List Char) : Nat → List Char → List Char
  | _, [] => []
  | 0, s => s
  | fuel + 1, c :: rest =>
      if pat ≠ [] ∧ leadsWith pat (c :: rest) then
        stripAllAux pat fuel (List.drop (pat.length - 1) rest)
      else
        c :: stripAllAux pat fuel rest

/-- Python `s.replace(pat, '')`: remove every (left-to-right,
non-overlapping) occurrence of `pat`. -/
def stripAll (pat s : String) : String :=
  String.mk (stripAllAux pat.data s.data.length s.data)

/-- Python `enumerate(l, n)`. -/
def enumFromN {α : Type} (n : Nat) : List α → List (Nat × α)
  | [] => []
  | a :: as => (n, a) :: enumFromN (n + 1) as

/-- Python `file.readlines()`: split after every newline, keeping it. -/
def readlinesAux (cur : List Char) : List Char → List (List Char)
  | [] => if cur = [] then [] else [cur.reverse]
  | c :: rest =>
      if c = '\n' then (cur.reverse ++ ['\n']) :: readlinesAux [] rest
      else readlinesAux (c :: cur) rest

/-- Python `file.readlines()` on a whole-file string. -/
def pyReadlines (s : String) : List String :=
  (readlinesAux [] s.data).map String.mk

/-- Python `str.splitlines()` for `\n`-separated text (trailing newline
produces no empty final line). -/
def splitlinesAux (cur : List Char) : List Char → List (List Char)
  | [] => if cur = [] then [] else [cur.reverse]
  | c :: rest =>
      if c = '\n' then cur.reverse :: splitlinesAux [] rest
      else splitlinesAux (c :: cur) rest

/-- Python `content.splitlines()`. -/
def pySplitlines (s : String) : List String :=
  (splitlinesAux [] s.data).map String.mk

/-- Python `list.insert` index clamping: negative indices count from the
end, and out-of-range indices clamp to the ends. -/
def pyInsertPos (n : Nat) (i : Int) : Nat :=
  if i < 0 then (max 0 (n + i)).toNat else min i.toNat n

/-- Insert an element at a (already clamped) position. -/
def insertAt {α : Type} : Nat → α → List α → List α
  | 0, x, l => x :: l
  | _ + 1, x, [] => [x]
  | n + 1, x, a :: l => a :: insertAt n x l

/-! ## The six canonical bug categories (`agent.py` lines 53-91) -/

/-- The exactly-six bug types used throughout the agent. -/
inductive BugType
  | INDENTATION
  | SYNTAX
  | IMPORT
  | TYPE_ERROR
  | LINTING
  | LOGIC
deriving DecidableEq

/-- The fixed scan order of `determine_bug_type` and the fixed
`TYPE_PRIORITY` order of `run_comprehensive_analysis`. -/
def bugOrder : List BugType :=
  [.INDENTATION, .SYNTAX, .IMPORT, .TYPE_ERROR, .LINTING, .LOGIC]

/-- `RiftAgent.BUG_KEYWORDS` (`agent.py` lines 60-91), verbatim. -/
def BUG_KEYWORDS : BugType → List String
  | .INDENTATION =>
      ["IndentationError", "unexpected indent", "unindent does not match",
       "expected an indented block", "E1", "W1"]
  | .SYNTAX =>
      ["SyntaxError", "invalid syntax", "can't parse", "E999",
       "never closed", "expected", "was never closed"]
  | .IMPORT =>
      ["ImportError", "ModuleNotFoundError", "No module named",
       "cannot import", "F401", "F811"]
  | .TYPE_ERROR =>
      ["TypeError", "unsupported operand", "cannot concatenate",
       "must be str", "UnicodeDecodeError", "UnicodeEncodeError"]
  | .LINTING =>
      ["F841", "F821", "F811", "F401", "W", "E2", "E3", "E5",
       "unused", "redefined", "undefined name", "ruff", "pyflakes",
       "line too long", "whitespace"]
  | .LOGIC =>
      ["NameError", "AttributeError", "IndexError", "KeyError",
       "ValueError", "ZeroDivisionError", "RuntimeError",
       "RecursionError", "OverflowError", "AssertionError",
       "StopIteration", "PermissionError", "FileNotFoundError",
       "OSError", "MemoryError", "NotImplementedError",
       "FloatingPointError", "LookupError", "bare except",
       "unreachable", "off-by-one", "division by zero"]

/-- `RiftAgent.determine_bug_type` (`agent.py` lines 745-759): empty
messages default to LOGIC, otherwise the uppercased message is scanned
against the keyword lists in the fixed priority order and the first
category with a (case-insensitive) substring hit wins; no hit defaults
to LOGIC. -/
def determine_bug_type (msg : String) : BugType :=
  if msg = "" then .LOGIC
  else
    match bugOrder.find? (fun bt =>
        (BUG_KEYWORDS bt).any (fun kw => containsSub (pyUpper msg) (pyUpper kw))) with
    | some bt => bt
    | none => .LOGIC

/-- Modelled from the spec (§4.1): the Classifier contract — uppercase
the input, scan the keyword lists in the fixed priority order, return
the first category whose keyword list contains a case-insensitive
substring match, defaulting to LOGIC.  Used only to compare against the
source-derived `determine_bug_type`. -/
def specClassify (msg : String) : BugType :=
  match bugOrder.find? (fun bt =>
      (BUG_KEYWORDS bt).any (fun kw => containsSub (pyUpper msg) (pyUpper kw))) with
  | some bt => bt
  | none => .LOGIC

/-! ## Error records and the aggregation stage
(`run_comprehensive_analysis`, `agent.py` lines 1147-1170) -/

/-- One error dictionary as produced by every scanner pass:
`{"file": ..., "line": ..., "message": ..., "type": ..., "source": ...}`. -/
structure AnalysisError where
  file : String
  line : Nat
  message : String
  type : BugType
  source : String
deriving DecidableEq

/-- `TYPE_PRIORITY` (`agent.py` lines 1148-1150): index of each category
in the fixed order; lower wins. -/
def typePriority : BugType → Nat
  | .INDENTATION => 0
  | .SYNTAX => 1
  | .IMPORT => 2
  | .TYPE_ERROR => 3
  | .LINTING => 4
  | .LOGIC => 5

/-- Path normalization of the aggregator (`agent.py` lines 1154-1155):
if the clone-path string occurs in the file path, delete every
occurrence of `clonePath ++ "/"`. -/
def normalizeFile (clonePath fp : String) : String :=
  if containsSub fp clonePath then stripAll (clonePath ++ "/") fp else fp

/-- Notebook/doc-path discarding (`agent.py` line 1156). -/
def discardPath (fp : String) : Bool :=
  containsSub fp ".ipynb" || containsSub fp "/docstrings/" || containsSub fp "/doc/"

/-- `best[key] = error` on an insertion-ordered dictionary: a colliding
key keeps its position and keeps the stored error unless the incoming
one has strictly smaller priority (`agent.py` lines 1159-1166). -/
def insertBest (b : List ((String × Nat) × AnalysisError))
    (k : String × Nat) (e : AnalysisError) : List ((String × Nat) × AnalysisError) :=
  match b with
  | [] => [(k, e)]
  | (k0, v0) :: rest =>
      if k0 = k then
        (if typePriority e.type < typePriority v0.type then (k0, e) else (k0, v0)) :: rest
      else
        (k0, v0) :: insertBest rest k e

/-- One iteration of the aggregator's dedup loop over `all_errors`. -/
def aggStep (clonePath : String)
    (b : List ((String × Nat) × AnalysisError)) (e : AnalysisError) :
    List ((String × Nat) × AnalysisError) :=
  let fp := normalizeFile clonePath e.file
  if discardPath fp then b
  else insertBest b (fp, e.line) { e with file := fp }

/-- The aggregation stage of `run_comprehensive_analysis` (`agent.py`
lines 1147-1170): normalize paths, discard notebook/doc paths,
deduplicate by `(file, line)` with category priority, and truncate the
insertion-ordered values to `max_fixes`. -/
def aggregate (clonePath : String) (maxFixes : Nat)
    (errors : List AnalysisError) : List AnalysisError :=
  ((errors.foldl (aggStep clonePath) []).map (fun kv => kv.2)).take maxFixes

/-! ## `run_syntax_check._add` (`agent.py` lines 283-297) -/

/-- `_add`: append an error only when no error with the same
`(file, line)` key has been recorded yet. -/
def addError (errors : List AnalysisError) (e : AnalysisError) : List AnalysisError :=
  if errors.any (fun x => x.file = e.file && x.line = e.line) then errors
  else errors ++ [e]

/-- Reference formulation of first-record-wins deduplication: keep each
record whose `(file, line)` key was not seen earlier. -/
def keepFirstAux (seen : List (String × Nat)) : List AnalysisError → List AnalysisError
  | [] => []
  | e :: es =>
      if (e.file, e.line) ∈ seen then keepFirstAux seen es
      else e :: keepFirstAux ((e.file, e.line) :: seen) es

/-! ## Pattern scanner (`run_regex_pattern_detection`,
`agent.py` lines 761-908) -/

/-- Anchored keyword: `kw` as an initial segment of `l`, returning the
remainder. -/
def afterKw (kw : String) (l : List Char) : Option (List Char) :=
  if leadsWith kw.data l then some (l.drop kw.data.length) else none

/-- Word boundary `\b` immediately after a word-char run: the next
character is absent or not a word character. -/
def boundaryHead : List Char → Bool
  | [] => true
  | c :: _ => !(isWordChar c)

/-- `re.match(r'^(?:import|from)\s+([\w.]+)', stripped)`: the captured
dotted module path, if any. -/
def matchModulePath (l : List Char) : Option String :=
  let attempt := fun (kw : String) =>
    match afterKw kw l with
    | some r =>
        match r with
        | c :: _ =>
            if isPyWs c then
              let cap := (r.dropWhile isPyWs).takeWhile (fun c => isWordChar c || c = '.')
              if cap = [] then none else some (String.mk cap)
            else none
        | [] => none
    | none => none
  match attempt "import" with
  | some m => some m
  | none => attempt "from"

/-- `re.match(r'^import\s+(\w+)', stripped)`: the captured plain name. -/
def matchPlainImportName (l : List Char) : Option String :=
  match afterKw "import" l with
  | some r =>
      match r with
      | c :: _ =>
          if isPyWs c then
            let cap := (r.dropWhile isPyWs).takeWhile isWordChar
            if cap = [] then none else some (String.mk cap)
          else none
      | [] => none
  | none => none

/-- Count the `re.findall(r'\b name \b', text)` matches: occurrences of
the (word-char) name delimited by word boundaries. -/
def countWordAux (nm : List Char) (prevWord : Bool) : List Char → Nat
  | [] => 0
  | c :: rest =>
      (if !prevWord && leadsWith nm (c :: rest)
          && boundaryHead ((c :: rest).drop nm.length) then 1 else 0)
      + countWordAux nm (isWordChar c) rest

/-- Whole-word occurrence count of `nm` in `text`. -/
def countWord (nm text : String) : Nat :=
  countWordAux nm.data false text.data

/-- The block keywords of the missing-colon rule, each followed by `\b`
in `re.match(r'^(?:def|class|if|elif|else|for|while|try|except|finally|with|async\s+def|async\s+for|async\s+with)\b', stripped)`. -/
def blockKwMatch (l : List Char) : Bool :=
  let simpleKw := fun (kw : String) =>
    match afterKw kw l with
    | some r => boundaryHead r
    | none => false
  let asyncKw := fun (kw : String) =>
    match afterKw "async" l with
    | some r =>
        match r with
        | c :: _ =>
            if isPyWs c then
              match afterKw kw (r.dropWhile isPyWs) with
              | some r2 => boundaryHead r2
              | none => false
            else false
        | [] => false
    | none => false
  simpleKw "def" || simpleKw "class" || simpleKw "if" || simpleKw "elif"
    || simpleKw "else" || simpleKw "for" || simpleKw "while" || simpleKw "try"
    || simpleKw "except" || simpleKw "finally" || simpleKw "with"
    || asyncKw "def" || asyncKw "for" || asyncKw "with"

/-- `re.match(r'^(?:if|elif|while)\s+(.*)', stripped)`: the captured
condition text after the greedy `\s+`. -/
def matchCondRest (l : List Char) : Option (List Char) :=
  let attempt := fun (kw : String) =>
    match afterKw kw l with
    | some r =>
        match r with
        | c :: _ => if isPyWs c then some (r.dropWhile isPyWs) else none
        | [] => none
    | none => none
  match attempt "if" with
  | some r => some r
  | none =>
      match attempt "elif" with
      | some r => some r
      | none => attempt "while"

/-- `re.search(r'(?<![=!<>])=(?![=>])', body)`: a bare `=` not flanked
by comparison/negation operator characters. -/
def loneEqAux (prev : Option Char) : List Char → Bool
  | [] => false
  | c :: rest =>
      (c = '=' &&
        (match prev with
         | none => true
         | some p => !(p = '=' || p = '!' || p = '<' || p = '>')) &&
        (match rest with
         | [] => true
         | n :: _ => !(n = '=' || n = '>')))
      || loneEqAux (some c) rest

/-- Entry point for the lone-`=` search. -/
def hasLoneEq (l : List Char) : Bool :=
  loneEqAux none l

/-- Quote characters of the `["\']` class. -/
def isQuote (c : Char) : Bool :=
  c = '"' || c = '\''

/-- Tail of `re.search(r'\b\d+\b\s*\+\s*["\']', s)` after the digit run
start: digits, optional spaces, `+`, optional spaces, then a quote. -/
def numPlusStrTail (l : List Char) : Bool :=
  let afterDigits := l.dropWhile Char.isDigit
  match afterDigits.dropWhile isPyWs with
  | '+' :: r2 =>
      match r2.dropWhile isPyWs with
      | c :: _ => isQuote c
      | [] => false
  | _ => false

/-- Position scan for the `\b\d+\b\s*\+\s*["\']` alternative, carrying
whether the previous character was a word character (for `\b`). -/
def numPlusStrScan (prevWord : Bool) : List Char → Bool
  | [] => false
  | c :: rest =>
      (!prevWord && c.isDigit && numPlusStrTail (c :: rest))
      || numPlusStrScan (isWordChar c) rest

/-- Tail of `re.search(r'["\']\s*\+\s*\b\d+\b', s)` after a quote:
optional spaces, `+`, optional spaces, a digit run, then `\b`. -/
def strPlusNumTail (r : List Char) : Bool :=
  match r.dropWhile isPyWs with
  | '+' :: r2 =>
      match r2.dropWhile isPyWs with
      | d :: r3 =>
          d.isDigit && boundaryHead ((d :: r3).dropWhile Char.isDigit)
      | [] => false
  | _ => false

/-- Position scan for the `["\']\s*\+\s*\b\d+\b` alternative. -/
def strPlusNumScan : List Char → Bool
  | [] => false
  | c :: rest => (isQuote c && strPlusNumTail rest) || strPlusNumScan rest

/-- `re.search(r'\b\d+\b\s*\+\s*["\']|["\']\s*\+\s*\b\d+\b', stripped)`. -/
def numStrConcatSearch (l : List Char) : Bool :=
  numPlusStrScan false l || strPlusNumScan l

/-- Match at one position for
`re.search(r'print\s*\(\s*["\'][^"\')]*["\']\s+\w', stripped)`. -/
def printCallAt (l : List Char) : Bool :=
  match afterKw "print" l with
  | some r =>
      (match r.dropWhile isPyWs with
       | '(' :: r2 =>
           (match r2.dropWhile isPyWs with
            | q :: r4 =>
                if isQuote q then
                  let r5 := r4.dropWhile (fun c => !(isQuote c || c = ')'))
                  match r5 with
                  | c :: r6 =>
                      if isQuote c then
                        match r6 with
                        | d :: _ =>
                            isPyWs d &&
                              (match r6.dropWhile isPyWs with
                               | w :: _ => isWordChar w
                               | [] => false)
                        | [] => false
                      else false
                  | [] => false
                else false
            | [] => false)
       | _ => false)
  | none => false

/-- `re.search` scan for the print-call-missing-separator rule. -/
def printCallSearch : List Char → Bool
  | [] => false
  | c :: rest => printCallAt (c :: rest) || printCallSearch rest

/-- `re.search(r'/\s*0(?!\.)(?:\b|$)', stripped)`: division (or the
second slash of `//`) followed by a literal zero not continuing into a
float or identifier-like token. -/
def divZeroSearch : List Char → Bool
  | [] => false
  | c :: rest =>
      (c = '/' &&
        (match rest.dropWhile isPyWs with
         | '0' :: after =>
             (match after with
              | [] => true
              | d :: _ => !(d = '.') && !(isWordChar d))
         | _ => false))
      || divZeroSearch rest

/-- `re.match(r'^except\s*:', stripped) or
re.match(r'^except\s*Exception\s*:', stripped)`. -/
def bareExceptMatch (l : List Char) : Bool :=
  match afterKw "except" l with
  | some r =>
      (match r.dropWhile isPyWs with
       | ':' :: _ => true
       | _ =>
           match afterKw "Exception" (r.dropWhile isPyWs) with
           | some r2 =>
               (match r2.dropWhile isPyWs with
                | ':' :: _ => true
                | _ => false)
           | none => false)
  | none => false

/-- `re.search(r'==\s*None|!=\s*None|==\s*True|==\s*False', stripped)`. -/
def singletonEqSearch : List Char → Bool
  | [] => false
  | c :: rest =>
      (match afterKw "==" (c :: rest) with
       | some r =>
           let r1 := r.dropWhile isPyWs
           leadsWith "None".data r1 || leadsWith "True".data r1
             || leadsWith "False".data r1
       | none => false)
      ||
      (match afterKw "!=" (c :: rest) with
       | some r => leadsWith "None".data (r.dropWhile isPyWs)
       | none => false)
      || singletonEqSearch rest

/-- Python `s.split(sep)[0]` for a single-character separator. -/
def takeUntilChar (sep : Char) (l : List Char) : List Char :=
  l.takeWhile (fun c => !(c = sep))

/-- The nine per-line rules of `run_regex_pattern_detection`, in source
order, each yielding `some (message, category)` when its pattern fires.
`findSpec` stands in for `importlib.util.find_spec` (external to the
repository): `findSpec m = true` iff the module `m` resolves. -/
def regexLineRules (findSpec : String → Bool) (fullText : String)
    (stripped : List Char) : List (Option (String × BugType)) :=
  let codePart := pyRstrip (takeUntilChar '#' stripped)
  [ -- missing module (importlib check)
    match matchModulePath stripped with
    | some dotted =>
        let moduleName := String.mk (takeUntilChar '.' dotted.data)
        if !findSpec moduleName then
          some ("ImportError: No module named '" ++ moduleName
              ++ "' — module not installed or not found", .IMPORT)
        else none
    | none => none,
    -- unused import (regex fallback)
    match matchPlainImportName stripped with
    | some nm =>
        if countWord nm fullText ≤ 1 then
          some ("IMPORT: '" ++ nm ++ "' imported but never used (F401)", .IMPORT)
        else none
    | none => none,
    -- missing colon after block keyword
    if blockKwMatch stripped && !(codePart = []) && !(codePart.getLast? = some ':') then
      some ("SyntaxError: missing colon at end of block statement", .SYNTAX)
    else none,
    -- assignment in condition
    match matchCondRest stripped with
    | some rest =>
        if hasLoneEq (takeUntilChar ':' (takeUntilChar '#' rest)) then
          some ("SyntaxError: use '==' for comparison, not '=' (assignment in condition)",
            .SYNTAX)
        else none
    | none => none,
    -- str + int literal
    if numStrConcatSearch stripped then
      some ("TypeError: unsupported operand — cannot concatenate str and int directly",
        .TYPE_ERROR)
    else none,
    -- print("text" var) — missing comma/+
    if printCallSearch stripped then
      some ("SyntaxError: missing comma or + in print statement", .SYNTAX)
    else none,
    -- division by zero literal
    if divZeroSearch stripped then
      some ("LOGIC: ZeroDivisionError — division by literal zero", .LOGIC)
    else none,
    -- bare except
    if bareExceptMatch stripped then
      some ("LOGIC: bare except — catches all exceptions including system exits; use specific exception types",
        .LOGIC)
    else none,
    -- comparison to None/True/False with == not is
    if singletonEqSearch stripped then
      some ("LOGIC: use 'is' or 'is not' when comparing to None/True/False, not '=='",
        .LOGIC)
    else none ]

/-- The findings emitted for one physical line (blank and comment lines
are skipped). -/
def regexLineChecks (findSpec : String → Bool) (fullText relPath : String)
    (lineno : Nat) (rawLine : String) : List AnalysisError :=
  let line := pyRstripNl rawLine
  let stripped := pyStripL line.data
  if stripped = [] || leadsWith "#".data stripped then []
  else
    (regexLineRules findSpec fullText stripped).filterMap
      (fun o => o.map (fun mt => ⟨relPath, lineno, mt.1, mt.2, "regex"⟩))

/-- `run_regex_pattern_detection` restricted to one file: enumerate the
raw lines from 1 and concatenate the per-line findings. -/
def regexDetectFile (findSpec : String → Bool) (relPath content : String) :
    List AnalysisError :=
  ((enumFromN 1 (pyReadlines content)).map
    (fun p => regexLineChecks findSpec content relPath p.1 p.2)).flatten

/-! ## Syntax check (`run_syntax_check`, `agent.py` lines 259-408) -/

/-- Outcome of CPython `tokenize.generate_tokens` on a whole file:
success, an `IndentationError` (with `lineno`, 0 standing for a falsy
`None`/`0` value), or a swallowed `TokenError`.  CPython itself is
external to the repository, so the outcome is an oracle argument. -/
inductive TokOutcome
  | tokOk
  | tokIndentErr (lineno : Nat) (msg : String)
  | tokError
deriving DecidableEq

/-- Outcome of CPython `compile(src, ..., 'exec')`: success, an
`IndentationError`, or another `SyntaxError` (with `lineno`, 0 standing
for a falsy value).  CPython is external to the repository, so compile
outcomes are oracle arguments. -/
inductive CompileOutcome
  | ok
  | indentErr (lineno : Nat) (msg : String)
  | syntaxErr (lineno : Nat) (msg : String)
deriving DecidableEq

/-- Python `e.lineno or 1`: falsy (`None`/`0`) line numbers become 1. -/
def pyLinenoOr1 (n : Nat) : Nat :=
  if n = 0 then 1 else n

/-- `re.match(r'^(?:def|class|async\s+def)\s', s)`: the block-header
test of pass 4 (`agent.py` lines 366-369), applied to a stripped line. -/
def headerMatchB (s : String) : Bool :=
  let l := s.data
  let kwThenWs := fun (kw : String) (l : List Char) =>
    match afterKw kw l with
    | some (c :: _) => isPyWs c
    | _ => false
  kwThenWs "def" l || kwThenWs "class" l ||
    (match afterKw "async" l with
     | some (c :: rest) =>
         isPyWs c && kwThenWs "def" ((c :: rest).dropWhile isPyWs)
     | _ => false)

/-- `is_new_block` (`agent.py` lines 366-369): the stripped line matches
the header regex and the index is positive. -/
def isNewBlockLine (i : Nat) (rawLine : String) : Bool :=
  headerMatchB (pyStrip rawLine) && decide (0 < i)

/-- The indices at which pass 4 starts a new block: exactly the lines
where `is_new_block` holds during the scan. -/
def scanBlockStarts (lines : List String) : List Nat :=
  (enumFromN 0 lines).filterMap
    (fun p => if isNewBlockLine p.1 p.2 then some p.1 else none)

/-- One iteration of the pass-4 loop (`agent.py` lines 363-405); the
state is `(block_start, errors)`.  `bcomp` is the CPython compile
oracle applied to joined block sources. -/
def blockScanStep (bcomp : String → CompileOutcome) (relPath : String)
    (lines : List String) (st : Nat × List AnalysisError) (p : Nat × String) :
    Nat × List AnalysisError :=
  let blockStart := st.1
  let errs := st.2
  let i := p.1
  let isNew := isNewBlockLine i p.2
  let atLast := decide (i = lines.length - 1)
  let errs2 :=
    if isNew || atLast then
      let stop := if isNew then i else i + 1
      let blockLines := (lines.drop blockStart).take (stop - blockStart)
      let blockSrc := String.intercalate "\n" blockLines
      if !(pyStrip blockSrc = "") then
        match bcomp blockSrc with
        | .ok => errs
        | .indentErr ln m =>
            addError errs ⟨relPath, blockStart + pyLinenoOr1 ln,
              "IndentationError: " ++ m, .INDENTATION, "block_scan"⟩
        | .syntaxErr _ _ =>
            -- the header may be broken (e.g. missing ':'); retry the body
            if 1 < blockLines.length then
              let bodySrc := String.intercalate "\n" (blockLines.drop 1)
              if !(pyStrip bodySrc = "") then
                match bcomp bodySrc with
                | .indentErr ln m =>
                    addError errs ⟨relPath, blockStart + 1 + pyLinenoOr1 ln,
                      "IndentationError: " ++ m, .INDENTATION, "block_scan"⟩
                | _ => errs
              else errs
            else errs
      else errs
    else errs
  (if isNew then i else blockStart, errs2)

/-- Pass 4 of `run_syntax_check`: the multi-block IndentationError scan. -/
def blockScan (bcomp : String → CompileOutcome) (relPath : String)
    (lines : List String) (errs : List AnalysisError) : List AnalysisError :=
  ((enumFromN 0 lines).foldl (blockScanStep bcomp relPath lines) (0, errs)).2

/-- Pass 1 of `run_syntax_check` (lines 311-319): the tokenize-based
lexical scan; `TokenError` is swallowed. -/
def syntaxPass1 (relPath : String) (tok : TokOutcome) : List AnalysisError :=
  match tok with
  | .tokIndentErr n m =>
      addError [] ⟨relPath, pyLinenoOr1 n, "IndentationError: " ++ m,
        .INDENTATION, "tokenize"⟩
  | _ => []

/-- Pass 2 of `run_syntax_check` (lines 321-329): whole-file compile. -/
def syntaxPass2 (relPath : String) (comp : CompileOutcome)
    (errs : List AnalysisError) : List AnalysisError :=
  match comp with
  | .ok => errs
  | .indentErr n m =>
      addError errs ⟨relPath, pyLinenoOr1 n, "IndentationError: " ++ m,
        .INDENTATION, "compile"⟩
  | .syntaxErr n m =>
      addError errs ⟨relPath, pyLinenoOr1 n, "SyntaxError: " ++ m,
        .SYNTAX, "compile"⟩

/-- Pass 3 of `run_syntax_check` (lines 331-353): the `py_compile`
subprocess check, given the `(path, line, message)` triple its stderr
regexes extract (or `none` when the subprocess succeeded or nothing
matched). -/
def syntaxPass3 (clonePath : String) (pyc : Option (String × Nat × String))
    (errs : List AnalysisError) : List AnalysisError :=
  match pyc with
  | some (rp, ln, msg) =>
      let rp2 := if containsSub rp clonePath then stripAll (clonePath ++ "/") rp else rp
      addError errs ⟨rp2, ln, pyTrunc 200 (pyStrip msg),
        determine_bug_type msg, "py_compile"⟩
  | none => errs

/-- `run_syntax_check` restricted to one file (`agent.py` lines
299-405).  `tok` and `comp` are the CPython tokenize/compile outcomes on
the whole file, `pyc` is the `(path, line, message)` triple the
`py_compile` subprocess pass extracts from stderr (when its regexes
match), and `bcomp` is the compile oracle used on block sources. -/
def runSyntaxCheckFile (tok : TokOutcome) (comp : CompileOutcome)
    (pyc : Option (String × Nat × String)) (bcomp : String → CompileOutcome)
    (clonePath relPath : String) (lines : List String) : List AnalysisError :=
  blockScan bcomp relPath lines
    (syntaxPass3 clonePath pyc (syntaxPass2 relPath comp (syntaxPass1 relPath tok)))

/-- Modelled from the spec (§4.3 and §8): the outcomes of CPython
`compile` — external to this repository — on the three block sources
arising from the example file
`def f()\n    x = 1\ndef g():\n        print(1)\n`: the colon-less
block 1 is a generic syntax failure at its first line, its body alone
is an indentation failure at its first line, and block 2 parses. -/
def cpythonBlockOutcomes : String → CompileOutcome := fun src =>
  if src = "def f()\n    x = 1" then .syntaxErr 1 "expected ':'"
  else if src = "    x = 1" then .indentErr 1 "unexpected indent"
  else .ok

/-- The §8 example file, as the line list `content.splitlines()`. -/
def exampleLines : List String :=
  ["def f()", "    x = 1", "def g():", "        print(1)"]

/-- The full syntax-check result on the §8 example file, with the
CPython oracle outcomes of that file: tokenize succeeds (its indent
levels 0/4/0/8 are consistent), whole-file compile is a SyntaxError at
line 1 (the colon-less `def f()`), and the `py_compile` subprocess
reports the same line-1 failure through an absolute path. -/
def exampleSyntaxCheck : List AnalysisError :=
  runSyntaxCheckFile .tokOk (.syntaxErr 1 "expected ':'")
    (some ("/tmp/repo_clone/test.py", 1, "invalid syntax"))
    cpythonBlockOutcomes "/tmp/repo_clone" "test.py" exampleLines

/-! ## Dynamic executor (`_analyze_single_file` /
`_map_exception_to_bug_type`, `agent.py` lines 910-1064) -/

/-- One parsed JSON line printed by the sandboxed runner subprocess:
`{"file": ..., "line": ..., "exc": ..., "msg": ...}`.  The runner (a
generated script executed by an external CPython) is modelled as the
record stream it prints, which is exactly what `_analyze_single_file`
consumes. -/
structure DynRecord where
  file : String
  line : Nat
  exc : String
  msg : String
deriving DecidableEq

/-- `_map_exception_to_bug_type` (`agent.py` lines 910-945), verbatim;
anything unmapped defaults to LOGIC. -/
def mapExceptionToBugType (excName : String) : BugType :=
  if excName = "IndentationError" then .INDENTATION
  else if excName = "TabError" then .INDENTATION
  else if excName = "SyntaxError" then .SYNTAX
  else if excName = "ImportError" then .IMPORT
  else if excName = "ModuleNotFoundError" then .IMPORT
  else if excName = "TypeError" then .TYPE_ERROR
  else if excName = "UnicodeDecodeError" then .TYPE_ERROR
  else if excName = "UnicodeEncodeError" then .TYPE_ERROR
  else .LOGIC

/-- The stdout-processing loop of `_analyze_single_file` (`agent.py`
lines 1039-1063): dedup by `(rel_path, line, exc)` within one file's
run, and map the exception name through the fixed table. -/
def processDynAux (relPath : String) (seen : List (String × Nat × String)) :
    List DynRecord → List AnalysisError
  | [] => []
  | r :: rs =>
      if (relPath, r.line, r.exc) ∈ seen then processDynAux relPath seen rs
      else
        ⟨r.file, r.line, r.exc ++ ": " ++ r.msg, mapExceptionToBugType r.exc,
          "dynamic"⟩
        :: processDynAux relPath ((relPath, r.line, r.exc) :: seen) rs

/-- `_analyze_single_file`'s result for one file, as a function of the
runner's printed records. -/
def processDynOutput (relPath : String) (records : List DynRecord) :
    List AnalysisError :=
  processDynAux relPath [] records

/-! ## Fix lifecycle (`FixResult` / `apply_fix` / `detect_and_fix`,
`agent.py` lines 37-46, 1278-1340) -/

/-- The `FixResult` dataclass (`agent.py` lines 37-46). -/
structure FixResult where
  file : String
  bug_type : String
  line : Int
  fix : String
  status : String := "PENDING"
  original_error : String := ""
deriving DecidableEq

/-- The printable name of a bug type (the string the Python code passes
around). -/
def bugTypeName : BugType → String
  | .INDENTATION => "INDENTATION"
  | .SYNTAX => "SYNTAX"
  | .IMPORT => "IMPORT"
  | .TYPE_ERROR => "TYPE_ERROR"
  | .LINTING => "LINTING"
  | .LOGIC => "LOGIC"

/-- `_make_fix` inside `detect_and_fix` (`agent.py` lines 1278-1292):
one `FixResult` per surviving error, created with status DETECTED and
the error's own line. -/
def makeFix (e : AnalysisError) (fixDesc : String) : FixResult :=
  { file := e.file, bug_type := bugTypeName e.type, line := (e.line : Int),
    fix := fixDesc, status := "DETECTED", original_error := e.message }

/-- `apply_fix` (`agent.py` lines 1308-1340) on a pure file-system
model: `fileLines` is `none` when the target file does not exist, and
`ioError` is true when the read/write inside the `try` block raises
(the only path that sets FAILED).  Returns the boolean result, the
updated fix and the updated file contents. -/
def applyFix : Option (List String) → Bool → FixResult →
    Bool × FixResult × Option (List String)
  | none, _, fix => (false, fix, none)
  | some lines, ioError, fix =>
      if ioError then (false, { fix with status := "FAILED" }, some lines)
      else if fix.line ≤ (lines.length : Int) then
        let comment := "\n# AI-FIX (" ++ fix.bug_type ++ "): " ++ fix.fix ++ "\n"
        let newLines := insertAt (pyInsertPos lines.length (fix.line - 1)) comment lines
        (true, { fix with status := "APPLIED" }, some newLines)
      else
        (false, fix, some lines)

/-! ## AST-based passes (`_run_ast_lint` and `run_static_analysis`,
`agent.py` lines 529-701).  CPython's `ast` module is external to the
repository; a parsed file is modelled as the node list that `ast.walk`
yields, carrying exactly the fields these passes inspect. -/

/-- A constant operand of a binary operation, as inspected by the
static analyzer. -/
inductive POperand
  | constStr (s : String)
  | constInt (n : Int)
  | otherOperand
deriving DecidableEq

/-- The binary operators the static analyzer distinguishes. -/
inductive POp
  | add
  | div
  | floorDiv
  | mod
  | otherOp
deriving DecidableEq

/-- One node of `ast.walk`, restricted to the shapes the lint/static
passes pattern-match on.  Import aliases are `(asname?, name)` pairs;
an `attributeN` carries the base name when its value is a `Name`. -/
inductive PyNode
  | importN (names : List (Option String × String)) (lineno : Nat)
  | importFromN (names : List (Option String × String)) (lineno : Nat)
  | nameN (id : String) (lineno : Nat)
  | attributeN (base : Option String) (lineno : Nat)
  | exceptHandlerN (hasType : Bool) (lineno : Nat)
  | binOpN (op : POp) (left right : POperand) (lineno : Nat)
  | otherN (lineno : Nat)
deriving DecidableEq

/-- The source line of a node. -/
def nodeLine : PyNode → Nat
  | .importN _ n => n
  | .importFromN _ n => n
  | .nameN _ n => n
  | .attributeN _ n => n
  | .exceptHandlerN _ n => n
  | .binOpN _ _ _ n => n
  | .otherN n => n

/-- Python `dict` assignment `d[k] = v` on an insertion-ordered
association list. -/
def dictInsert (d : List (String × Nat)) (k : String) (v : Nat) :
    List (String × Nat) :=
  if d.any (fun p => p.1 = k) then
    d.map (fun p => if p.1 = k then (k, v) else p)
  else d ++ [(k, v)]

/-- The imported-name dictionary both AST passes build (`agent.py`
lines 550-561 and 617-628): plain imports bind the first dotted
component (or the asname), from-imports bind the plain name (or the
asname) and skip `*`. -/
def collectImported (nodes : List PyNode) : List (String × Nat) :=
  nodes.foldl
    (fun d n =>
      match n with
      | .importN names ln =>
          names.foldl
            (fun d a => dictInsert d (a.1.getD (String.mk (takeUntilChar '.' a.2.data))) ln)
            d
      | .importFromN names ln =>
          names.foldl
            (fun d a => if a.2 = "*" then d else dictInsert d (a.1.getD a.2) ln)
            d
      | _ => d)
    []

/-- The used-name set both AST passes build (`agent.py` lines 563-573
and 630-638): names and attribute bases seen outside import nodes. -/
def collectUsed (nodes : List PyNode) : List String :=
  nodes.foldl
    (fun u n =>
      match n with
      | .nameN id _ => u ++ [id]
      | .attributeN (some b) _ => u ++ [b]
      | _ => u)
    []

/-- `_run_ast_lint` restricted to one parsed file (`agent.py` lines
537-584): unused imports reported as LINTING findings. -/
def astLintFile (relPath : String) (nodes : List PyNode) : List AnalysisError :=
  let used := collectUsed nodes
  ((collectImported nodes).filter (fun p => !(used.contains p.1))).map
    (fun p => ⟨relPath, p.2, "F401: '" ++ p.1 ++ "' imported but unused",
      .LINTING, "ast_lint"⟩)

/-- The LOGIC/TYPE_ERROR checks of `run_static_analysis` for one node
(`agent.py` lines 651-691). -/
def staticNodeChecks (relPath : String) : PyNode → List AnalysisError
  | .exceptHandlerN false ln =>
      [⟨relPath, ln,
        "LOGIC: bare except catches all errors including KeyboardInterrupt — use specific exception types",
        .LOGIC, "static_analysis"⟩]
  | .binOpN op l r ln =>
      (if (op = .div || op = .floorDiv || op = .mod) && r = .constInt 0 then
        [⟨relPath, ln, "LOGIC: ZeroDivisionError — dividing by literal zero",
          .LOGIC, "static_analysis"⟩]
      else []) ++
      (if op = .add &&
          ((match l, r with
            | .constStr _, .constInt _ => true
            | .constInt _, .constStr _ => true
            | _, _ => false) : Bool) then
        [⟨relPath, ln,
          "TYPE_ERROR: cannot concatenate str and int — use str() to convert",
          .TYPE_ERROR, "static_analysis"⟩]
      else [])
  | _ => []

/-- `run_static_analysis` restricted to one parsed file (`agent.py`
lines 602-696): unused-import findings, then the per-node checks. -/
def staticAnalysisFile (relPath : String) (nodes : List PyNode) :
    List AnalysisError :=
  let used := collectUsed nodes
  ((collectImported nodes).filter (fun p => !(used.contains p.1))).map
    (fun p => ⟨relPath, p.2, "IMPORT: '" ++ p.1 ++ "' imported but never used",
      .IMPORT, "static_analysis"⟩)
  ++ (nodes.map (staticNodeChecks relPath)).flatten

/-! ## External lint tool streams (`run_rruff_linter`, `agent.py`
lines 413-508).  The subprocess output parsing (JSON decoding, the
stderr regexes) is modelled as the already-parsed item streams. -/

/-- One parsed ruff JSON item: code, filename, row (with the `.get`
default 1 already applied) and message. -/
structure RuffItem where
  code : String
  filename : String
  row : Nat
  message : String
deriving DecidableEq

/-- `_ruff_code_to_type` (`agent.py` lines 510-527). -/
def ruffCodeToType (code : String) : BugType :=
  let c := pyUpper code
  if leadsWith "E1".data c.data then .INDENTATION
  else if c = "E999" || leadsWith "E9".data c.data then .SYNTAX
  else if c = "F401" || c = "F811" then .IMPORT
  else if leadsWith "F".data c.data then .LINTING
  else .LINTING

/-- The ruff JSON branch of `run_rruff_linter` (`agent.py` lines
427-443): keep E/F codes, normalize the path, build a finding at the
reported row. -/
def ruffJsonErrors (clonePath : String) (items : List RuffItem) :
    List AnalysisError :=
  (items.filter (fun it =>
      leadsWith "E".data it.code.data || leadsWith "F".data it.code.data)).map
    (fun it =>
      ⟨normalizeFile clonePath it.filename, it.row,
        it.code ++ ": " ++ it.message, ruffCodeToType it.code, "ruff"⟩)

/-- The pyflakes branch of `run_rruff_linter` (`agent.py` lines
473-499), with the per-line regex extraction modelled as the parsed
`(path, line, message)` triples. -/
def pyflakesErrors (clonePath : String) (items : List (String × Nat × String)) :
    List AnalysisError :=
  items.map (fun it =>
    ⟨normalizeFile clonePath it.1, it.2.1, it.2.2,
      determine_bug_type it.2.2, "pyflakes"⟩)

/-! # Theorems -/

/-! ## Shared helper lemmas -/

/-- `e.lineno or 1` is always at least 1. -/
theorem pyLinenoOr1_pos (n : Nat) : 1 ≤ pyLinenoOr1 n := by
  unfold pyLinenoOr1
  split <;> omega

/-- Membership after `_add`: the record was already there or is the
newly appended one. -/
theorem mem_addError {errs : List AnalysisError} {x e : AnalysisError}
    (h : x ∈ addError errs e) : x ∈ errs ∨ x = e := by
  unfold addError at h
  split at h
  · exact Or.inl h
  · rcases List.mem_append.1 h with h1 | h1
    · exact Or.inl h1
    · exact Or.inr (List.mem_singleton.1 h1)

/-- `_add` preserves a per-record line bound. -/
theorem line_ge_addError {errs : List AnalysisError} {x : AnalysisError}
    (hinv : ∀ e ∈ errs, 1 ≤ e.line) (hx : 1 ≤ x.line) :
    ∀ e ∈ addError errs x, 1 ≤ e.line := by
  intro e he
  rcases mem_addError he with h | rfl
  · exact hinv e h
  · exact hx

/-- Invariant preservation through `List.foldl`, with membership of the
scanned element available to the step hypothesis. -/
theorem foldl_inv_mem {σ α : Type} (step : σ → α → σ) (Inv : σ → Prop) :
    ∀ (l : List α) (s : σ), (∀ s a, a ∈ l → Inv s → Inv (step s a)) →
      Inv s → Inv (l.foldl step s) := by
  intro l
  induction l with
  | nil => intro s _ h; exact h
  | cons a as ih =>
      intro s hstep h
      exact ih _ (fun s x hx => hstep s x (List.mem_cons_of_mem _ hx))
        (hstep s a (List.mem_cons_self _ _) h)

/-- Characterisation of membership in `enumFromN`. -/
theorem mem_enumFromN {α : Type} (ls : List α) :
    ∀ (n i : Nat) (a : α),
      ((i, a) ∈ enumFromN n ls ↔ n ≤ i ∧ ls.get? (i - n) = some a) := by
  induction ls with
  | nil => intro n i a; simp [enumFromN]
  | cons x xs ih =>
      intro n i a
      unfold enumFromN
      rw [List.mem_cons]
      constructor
      · rintro (h | h)
        · obtain ⟨rfl, rfl⟩ : i = n ∧ a = x := by
            exact ⟨congrArg Prod.fst h, congrArg Prod.snd h⟩
          exact ⟨Nat.le_refl _, by simp⟩
        · obtain ⟨h1, h2⟩ := (ih (n + 1) i a).1 h
          refine ⟨by omega, ?_⟩
          rw [show i - n = (i - (n + 1)) + 1 by omega]
          simpa using h2
      · rintro ⟨h1, h2⟩
        rcases Nat.eq_or_lt_of_le h1 with rfl | hlt
        · left
          rw [Nat.sub_self] at h2
          simp only [List.get?] at h2
          cases h2
          rfl
        · right
          refine (ih (n + 1) i a).2 ⟨by omega, ?_⟩
          rw [show i - n = (i - (n + 1)) + 1 by omega] at h2
          simpa using h2

/-! ## C2: the Classifier contract -/

/-- C2: `determine_bug_type` is total over exactly the six categories,
implements the spec's first-match scan in the fixed priority order
(including the case-insensitive substring test and the LOGIC default),
and maps the empty string to LOGIC. -/
theorem C2_classifier_contract :
    (∀ s, determine_bug_type s = specClassify s) ∧
    determine_bug_type "" = .LOGIC ∧
    (∀ s, determine_bug_type s ∈ bugOrder) := by
  refine ⟨?_, rfl, ?_⟩
  · intro s
    by_cases h : s = ""
    · subst h
      rfl
    · unfold determine_bug_type specClassify
      rw [if_neg h]
  · intro s
    unfold determine_bug_type
    by_cases h : s = ""
    · rw [if_pos h]
      decide
    · rw [if_neg h]
      split
      · next bt hf => exact List.mem_of_find?_eq_some hf
      · decide

/-! ## C7: dynamic executor dedup and exception mapping -/

/-- C7: a function that raises `ZeroDivisionError` at line `L` yields
exactly one finding, with category LOGIC and line `L`; a second record
with the same `(file, line, exception-name)` key in the same file's run
is deduplicated away. -/
theorem C7_dynamic_dedup (relPath : String) (L : Nat) (m1 m2 : String) :
    processDynOutput relPath
        [⟨relPath, L, "ZeroDivisionError", m1⟩,
         ⟨relPath, L, "ZeroDivisionError", m2⟩]
      = [⟨relPath, L, "ZeroDivisionError: " ++ m1, .LOGIC, "dynamic"⟩] := by
  unfold processDynOutput processDynAux
  rw [if_neg (List.not_mem_nil _)]
  unfold processDynAux
  rw [if_pos (List.mem_singleton.2 rfl)]
  unfold processDynAux
  rfl

/-! ## C6: the three pattern-scanner examples -/

/-- C6: on a file consisting of the example line, the pattern scanner
emits exactly the claimed finding — TYPE_ERROR for `x = "val" + 5`,
SYNTAX (assignment in condition) for `if x = 5:`, LOGIC for
`result = 10 / 0` — independently of the module-resolution oracle. -/
theorem C6_pattern_scanner_examples :
    ∀ findSpec : String → Bool,
      regexDetectFile findSpec "t.py" "x = \"val\" + 5\n"
        = [⟨"t.py", 1,
            "TypeError: unsupported operand — cannot concatenate str and int directly",
            .TYPE_ERROR, "regex"⟩] ∧
      regexDetectFile findSpec "t.py" "if x = 5:\n"
        = [⟨"t.py", 1,
            "SyntaxError: use '==' for comparison, not '=' (assignment in condition)",
            .SYNTAX, "regex"⟩] ∧
      regexDetectFile findSpec "t.py" "result = 10 / 0\n"
        = [⟨"t.py", 1,
            "LOGIC: ZeroDivisionError — division by literal zero",
            .LOGIC, "regex"⟩] := by
  intro findSpec
  exact ⟨rfl, rfl, rfl⟩

/-! ## C3: the §8 Block-Isolation Scanner example -/

/-- C3 counterexample: on the example file
`def f()\n    x = 1\ndef g():\n        print(1)\n` the syntax check
produces exactly one INDENTATION finding, but it sits at line 2 (the
`x = 1` line), not at line 4 as claimed. -/
theorem C3_counterexample :
    (exampleSyntaxCheck.filter
        (fun e => decide (e.type = BugType.INDENTATION))).map (fun e => e.line)
      = [2] ∧ (2 : Nat) ≠ 4 := by
  exact ⟨rfl, by decide⟩

/-- C3 amended: on the §8 example file the syntax check emits exactly a
SYNTAX finding at line 1 (the colon-less `def f()`, from whole-file
compile) and one INDENTATION finding at line 2 — the block scanner
re-parses block 1's body without its broken header and flags `x = 1`
as unexpectedly indented, while block 2 (`def g():` with its 8-space
body) parses cleanly in isolation and yields nothing. -/
theorem C3_amended_block_scan :
    exampleSyntaxCheck =
      [⟨"test.py", 1, "SyntaxError: expected ':'", .SYNTAX, "compile"⟩,
       ⟨"test.py", 2, "IndentationError: unexpected indent",
        .INDENTATION, "block_scan"⟩] := by
  rfl

/-! ## C4: fix application on an out-of-range line -/

/-- C4 counterexample: a DETECTED fix aimed at line 5 of a two-line
file keeps status DETECTED after `apply_fix` — it does not transition
to FAILED as claimed. -/
theorem C4_counterexample :
    (applyFix (some ["l1\n", "l2\n"]) false
        ⟨"a.py", "LOGIC", 5, "do", "DETECTED", "err"⟩).2.1.status = "DETECTED"
      ∧ ("DETECTED" : String) ≠ "FAILED"
      ∧ ((["l1\n", "l2\n"] : List String).length : Int) < 5 := by
  exact ⟨rfl, by decide, by decide⟩

/-- C4 amended: for a fix whose line exceeds the file's line count,
`apply_fix` (absent an I/O exception) returns False and leaves both the
fix and the file unchanged — in particular the status is never set to
APPLIED, but neither is it set to FAILED. -/
theorem C4_amended_out_of_range (lines : List String) (fix : FixResult)
    (h : (lines.length : Int) < fix.line) :
    applyFix (some lines) false fix = (false, fix, some lines) := by
  unfold applyFix
  dsimp only
  rw [if_neg (by decide), if_neg (by omega)]

/-- Witness for `C4_amended_out_of_range` at a concrete fix and file. -/
theorem C4_witness :
    applyFix (some ["x\n"]) false ⟨"a.py", "LOGIC", 9, "d", "DETECTED", "e"⟩
      = (false, ⟨"a.py", "LOGIC", 9, "d", "DETECTED", "e"⟩, some ["x\n"]) :=
  C4_amended_out_of_range ["x\n"] ⟨"a.py", "LOGIC", 9, "d", "DETECTED", "e"⟩
    (by decide)

/-! ## C5: block boundary detection -/

/-- C5 counterexample: the indented nested definition `    def h():`
(index 1) does start a new block, because the header regex is applied
to the *stripped* line — even though no def/class keyword begins at
column 0 (the raw line fails the header test). -/
theorem C5_counterexample :
    (1 ∈ scanBlockStarts ["x = 1", "    def h():"]) ∧
      headerMatchB "    def h():" = false := by
  exact ⟨by decide, rfl⟩

/-- C5 amended: pass 4 starts a new block exactly at the positive
indices whose line, *after stripping leading and trailing whitespace*,
matches the def/class/async-def header pattern; leading whitespace is
discarded first, so indented nested definitions also start blocks. -/
theorem C5_amended_block_starts (lines : List String) (i : Nat) :
    i ∈ scanBlockStarts lines ↔
      0 < i ∧ ∃ l, lines.get? i = some l ∧ headerMatchB (pyStrip l) = true := by
  unfold scanBlockStarts
  rw [List.mem_filterMap]
  constructor
  · rintro ⟨⟨j, l⟩, hmem, heq⟩
    by_cases hc : isNewBlockLine j l = true
    · rw [if_pos hc] at heq
      obtain rfl : i = j := (Option.some.inj heq).symm
      unfold isNewBlockLine at hc
      rw [Bool.and_eq_true, decide_eq_true_eq] at hc
      have hget := (mem_enumFromN lines 0 i l).1 hmem
      exact ⟨hc.2, l, by simpa using hget.2, hc.1⟩
    · rw [if_neg hc] at heq
      cases heq
  · rintro ⟨hi, l, hget, hh⟩
    refine ⟨(i, l), ?_, ?_⟩
    · exact (mem_enumFromN lines 0 i l).2 ⟨Nat.zero_le i, by simpa using hget⟩
    · rw [if_pos ?_]
      unfold isNewBlockLine
      rw [Bool.and_eq_true, decide_eq_true_eq]
      exact ⟨hh, hi⟩

/-! ## C10: first-record-wins inside `run_syntax_check` -/

/-- `_add` as a single conditional on the recorded key set. -/
theorem addError_eq (acc : List AnalysisError) (e : AnalysisError) :
    addError acc e =
      if (e.file, e.line) ∈ acc.map (fun x => (x.file, x.line)) then acc
      else acc ++ [e] := by
  unfold addError
  by_cases h : (e.file, e.line) ∈ acc.map (fun x => (x.file, x.line))
  · have hc : (acc.any fun x => x.file = e.file && x.line = e.line) = true := by
      rw [List.any_eq_true]
      obtain ⟨x, hx, hkey⟩ := List.mem_map.1 h
      refine ⟨x, hx, ?_⟩
      have h1 : x.file = e.file := congrArg Prod.fst hkey
      have h2 : x.line = e.line := congrArg Prod.snd hkey
      simp [h1, h2]
    simp [hc, h]
  · have hc : (acc.any fun x => x.file = e.file && x.line = e.line) = false := by
      rw [List.any_eq_false]
      intro x hx hcontra
      rw [Bool.and_eq_true, decide_eq_true_eq, decide_eq_true_eq] at hcontra
      exact h (List.mem_map.2 ⟨x, hx, by rw [hcontra.1, hcontra.2]⟩)
    simp [hc, h]

/-- Unfolding equation of `keepFirstAux` on an empty request list. -/
theorem keepFirstAux_nil (seen : List (String × Nat)) :
    keepFirstAux seen [] = [] := rfl

/-- Unfolding equation of `keepFirstAux` on a nonempty request list. -/
theorem keepFirstAux_cons (seen : List (String × Nat)) (e : AnalysisError)
    (es : List AnalysisError) :
    keepFirstAux seen (e :: es) =
      if (e.file, e.line) ∈ seen then keepFirstAux seen es
      else e :: keepFirstAux ((e.file, e.line) :: seen) es := rfl

/-- `keepFirstAux` only depends on the membership of the seen set. -/
theorem keepFirstAux_congr (rs : List AnalysisError) :
    ∀ s1 s2, (∀ k, k ∈ s1 ↔ k ∈ s2) → keepFirstAux s1 rs = keepFirstAux s2 rs := by
  induction rs with
  | nil => intro s1 s2 _; rfl
  | cons e es ih =>
      intro s1 s2 h
      unfold keepFirstAux
      by_cases hm : (e.file, e.line) ∈ s1
      · rw [if_pos hm, if_pos ((h _).1 hm)]
        exact ih s1 s2 h
      · rw [if_neg hm, if_neg (fun c => hm ((h _).2 c))]
        rw [ih ((e.file, e.line) :: s1) ((e.file, e.line) :: s2)
          (fun k => by simp [List.mem_cons, h k])]

/-- Folding `_add` from any prefix state computes exactly the
keep-the-first-record filter over the remaining requests. -/
theorem foldl_addError_keepFirst (rs : List AnalysisError) :
    ∀ acc, rs.foldl addError acc
      = acc ++ keepFirstAux (acc.map (fun e => (e.file, e.line))) rs := by
  induction rs with
  | nil => intro acc; simp [keepFirstAux]
  | cons e es ih =>
      intro acc
      rw [List.foldl_cons, addError_eq]
      by_cases h : (e.file, e.line) ∈ acc.map (fun x => (x.file, x.line))
      · rw [if_pos h, ih acc, keepFirstAux_cons, if_pos h]
      · rw [if_neg h, ih (acc ++ [e])]
        have hmap : (acc ++ [e]).map (fun x => (x.file, x.line))
            = acc.map (fun x => (x.file, x.line)) ++ [(e.file, e.line)] := by
          simp
        rw [hmap,
          keepFirstAux_congr es
            (acc.map (fun x => (x.file, x.line)) ++ [(e.file, e.line)])
            ((e.file, e.line) :: acc.map (fun x => (x.file, x.line)))
            (fun k => by simp [List.mem_append, List.mem_cons, or_comm]),
          keepFirstAux_cons, if_neg h]
        simp

/-- Records surviving `keepFirstAux` avoid the seen keys and carry
pairwise distinct keys. -/
theorem keepFirstAux_pairwise (rs : List AnalysisError) :
    ∀ seen, (∀ e ∈ keepFirstAux seen rs, (e.file, e.line) ∉ seen)
      ∧ (keepFirstAux seen rs).Pairwise
          (fun a b => (a.file, a.line) ≠ (b.file, b.line)) := by
  induction rs with
  | nil =>
      intro seen
      refine ⟨?_, ?_⟩
      · intro e he
        rw [keepFirstAux_nil] at he
        cases he
      · rw [keepFirstAux_nil]
        constructor
  | cons e es ih =>
      intro seen
      rw [keepFirstAux_cons]
      by_cases hm : (e.file, e.line) ∈ seen
      · rw [if_pos hm]
        exact ih seen
      · rw [if_neg hm]
        obtain ⟨hnot, hpw⟩ := ih ((e.file, e.line) :: seen)
        constructor
        · intro x hx
          rcases List.mem_cons.1 hx with rfl | hx2
          · exact hm
          · exact fun hc => hnot x hx2 (List.mem_cons_of_mem _ hc)
        · refine List.Pairwise.cons ?_ hpw
          intro b hb hEq
          exact hnot b hb (by rw [← hEq]; exact List.mem_cons_self _ _)

/-- C10: within one `run_syntax_check` invocation the recorded error
list equals the keep-the-first-record filter of the `_add` request
sequence (so the first pass to record a `(file, line)` key wins and a
later request — whatever its category — neither replaces nor
duplicates it), and the result holds at most one record per key. -/
theorem C10_first_record_wins (rs : List AnalysisError) :
    rs.foldl addError [] = keepFirstAux [] rs ∧
    (rs.foldl addError []).Pairwise
      (fun a b => (a.file, a.line) ≠ (b.file, b.line)) := by
  have h1 : rs.foldl addError [] = keepFirstAux [] rs := by
    have h := foldl_addError_keepFirst rs []
    simpa using h
  refine ⟨h1, ?_⟩
  rw [h1]
  exact (keepFirstAux_pairwise rs []).2

/-! ## C1: aggregator priority merge (SYNTAX over LOGIC) -/

/-- `aggStep` with its local bindings inlined. -/
theorem aggStep_eq (cp : String) (b : List ((String × Nat) × AnalysisError))
    (e : AnalysisError) :
    aggStep cp b e =
      if discardPath (normalizeFile cp e.file) = true then b
      else insertBest b (normalizeFile cp e.file, e.line)
        { e with file := normalizeFile cp e.file } := rfl

/-- Inserting into an empty dictionary. -/
theorem insertBest_nil (k : String × Nat) (e : AnalysisError) :
    insertBest [] k e = [(k, e)] := rfl

/-- A colliding key with no strictly better priority keeps the stored
record. -/
theorem insertBest_cons_keep (k0 : String × Nat) (v0 : AnalysisError)
    (rest : List ((String × Nat) × AnalysisError)) (k : String × Nat)
    (e : AnalysisError) (h1 : k0 = k)
    (h2 : ¬ typePriority e.type < typePriority v0.type) :
    insertBest ((k0, v0) :: rest) k e = (k0, v0) :: rest := by
  unfold insertBest
  rw [if_pos h1, if_neg h2]

/-- A colliding key with strictly better priority replaces the stored
record in place. -/
theorem insertBest_cons_replace (k0 : String × Nat) (v0 : AnalysisError)
    (rest : List ((String × Nat) × AnalysisError)) (k : String × Nat)
    (e : AnalysisError) (h1 : k0 = k)
    (h2 : typePriority e.type < typePriority v0.type) :
    insertBest ((k0, v0) :: rest) k e = (k0, e) :: rest := by
  unfold insertBest
  rw [if_pos h1, if_pos h2]

/-- C1: when a SYNTAX finding and a LOGIC finding collide on the same
normalized `(file, line)` key, the deduplicated output of the
comprehensive analysis retains exactly the SYNTAX finding (SYNTAX ranks
earlier in the fixed priority order), whichever of the two arrives
first. -/
theorem C1_aggregator_syntax_over_logic
    (cp : String) (m : Nat) (f1 f2 : AnalysisError)
    (hm : 1 ≤ m)
    (hfile : normalizeFile cp f2.file = normalizeFile cp f1.file)
    (hline : f2.line = f1.line)
    (hdisc : discardPath (normalizeFile cp f1.file) = false)
    (h1 : f1.type = .SYNTAX) (h2 : f2.type = .LOGIC) :
    aggregate cp m [f1, f2] = [{ f1 with file := normalizeFile cp f1.file }] ∧
    aggregate cp m [f2, f1] = [{ f1 with file := normalizeFile cp f1.file }] := by
  obtain ⟨m', rfl⟩ : ∃ m', m = m' + 1 := ⟨m - 1, by omega⟩
  have hstep1 : aggStep cp [] f1
      = [((normalizeFile cp f1.file, f1.line),
          { f1 with file := normalizeFile cp f1.file })] := by
    rw [aggStep_eq, if_neg (by simp [hdisc]), insertBest_nil]
  have hstep2 : aggStep cp
      [((normalizeFile cp f1.file, f1.line),
        { f1 with file := normalizeFile cp f1.file })] f2
      = [((normalizeFile cp f1.file, f1.line),
          { f1 with file := normalizeFile cp f1.file })] := by
    rw [aggStep_eq, hfile, hline, if_neg (by simp [hdisc])]
    apply insertBest_cons_keep _ _ _ _ _ rfl
    show ¬ typePriority f2.type < typePriority f1.type
    rw [h1, h2]
    decide
  have hstep1' : aggStep cp [] f2
      = [((normalizeFile cp f1.file, f1.line),
          { f2 with file := normalizeFile cp f1.file })] := by
    rw [aggStep_eq, hfile, hline, if_neg (by simp [hdisc]), insertBest_nil]
  have hstep2' : aggStep cp
      [((normalizeFile cp f1.file, f1.line),
        { f2 with file := normalizeFile cp f1.file })] f1
      = [((normalizeFile cp f1.file, f1.line),
          { f1 with file := normalizeFile cp f1.file })] := by
    rw [aggStep_eq, if_neg (by simp [hdisc])]
    apply insertBest_cons_replace _ _ _ _ _ rfl
    show typePriority f1.type < typePriority f2.type
    rw [h1, h2]
    decide
  constructor
  · unfold aggregate
    rw [List.foldl_cons, List.foldl_cons, List.foldl_nil, hstep1, hstep2]
    simp
  · unfold aggregate
    rw [List.foldl_cons, List.foldl_cons, List.foldl_nil, hstep1', hstep2']
    simp

/-- Witness for `C1_aggregator_syntax_over_logic` on two concrete
findings at the same key. -/
theorem C1_witness :
    discardPath (normalizeFile "/tmp/repo_clone" "a.py") = false ∧
    (aggregate "/tmp/repo_clone" 50
        [⟨"a.py", 3, "m1", .SYNTAX, "regex"⟩, ⟨"a.py", 3, "m2", .LOGIC, "dynamic"⟩]
      = [⟨normalizeFile "/tmp/repo_clone" "a.py", 3, "m1", .SYNTAX, "regex"⟩] ∧
     aggregate "/tmp/repo_clone" 50
        [⟨"a.py", 3, "m2", .LOGIC, "dynamic"⟩, ⟨"a.py", 3, "m1", .SYNTAX, "regex"⟩]
      = [⟨normalizeFile "/tmp/repo_clone" "a.py", 3, "m1", .SYNTAX, "regex"⟩]) :=
  ⟨by decide,
   C1_aggregator_syntax_over_logic "/tmp/repo_clone" 50
     ⟨"a.py", 3, "m1", .SYNTAX, "regex"⟩ ⟨"a.py", 3, "m2", .LOGIC, "dynamic"⟩
     (by decide) rfl rfl (by decide) rfl rfl⟩

/-! ## C8: aggregator idempotence -/

/-- Keys present after an `insertBest`. -/
theorem mem_keys_insertBest (b : List ((String × Nat) × AnalysisError))
    (k : String × Nat) (e : AnalysisError) (x : String × Nat) :
    x ∈ (insertBest b k e).map Prod.fst ↔ x ∈ b.map Prod.fst ∨ x = k := by
  induction b with
  | nil => simp [insertBest_nil]
  | cons kv rest ih =>
      obtain ⟨k0, v0⟩ := kv
      unfold insertBest
      by_cases h : k0 = k
      · rw [if_pos h]
        subst h
        by_cases hp : typePriority e.type < typePriority v0.type
        · rw [if_pos hp]
          simp
          tauto
        · rw [if_neg hp]
          simp
          tauto
  -- distinct head key: insertion happens in the tail
      · rw [if_neg h]
        simp [ih, or_assoc]

/-- `insertBest` preserves distinctness of the stored keys. -/
theorem nodup_keys_insertBest (b : List ((String × Nat) × AnalysisError))
    (k : String × Nat) (e : AnalysisError)
    (h : (b.map Prod.fst).Nodup) : ((insertBest b k e).map Prod.fst).Nodup := by
  induction b with
  | nil => simp [insertBest_nil]
  | cons kv rest ih =>
      obtain ⟨k0, v0⟩ := kv
      rw [List.map_cons, List.nodup_cons] at h
      unfold insertBest
      by_cases hk : k0 = k
      · rw [if_pos hk]
        by_cases hp : typePriority e.type < typePriority v0.type
        · rw [if_pos hp]
          simp only [List.map_cons, List.nodup_cons]
          exact ⟨h.1, h.2⟩
        · rw [if_neg hp]
          simp only [List.map_cons, List.nodup_cons]
          exact ⟨h.1, h.2⟩
      · rw [if_neg hk]
        simp only [List.map_cons, List.nodup_cons]
        refine ⟨?_, ih h.2⟩
        intro hc
        rcases (mem_keys_insertBest rest k e k0).1 hc with hc1 | rfl
        · exact h.1 hc1
        · exact hk rfl

/-- `insertBest` preserves the aggregator's dictionary invariant: every
stored key is the `(file, line)` of its value and no stored value has a
discarded path. -/
theorem goodEntry_insertBest (b : List ((String × Nat) × AnalysisError)) :
    ∀ (k : String × Nat) (e : AnalysisError),
      (∀ kv ∈ b, kv.1 = (kv.2.file, kv.2.line) ∧ discardPath kv.2.file = false) →
      k = (e.file, e.line) → discardPath e.file = false →
      ∀ kv ∈ insertBest b k e,
        kv.1 = (kv.2.file, kv.2.line) ∧ discardPath kv.2.file = false := by
  induction b with
  | nil =>
      intro k e _ hk he kv hkv
      rw [insertBest_nil] at hkv
      obtain rfl := List.mem_singleton.1 hkv
      exact ⟨hk, he⟩
  | cons kv0 rest ih =>
      intro k e hb hk he kv hkv
      obtain ⟨k0, v0⟩ := kv0
      unfold insertBest at hkv
      by_cases hk0 : k0 = k
      · rw [if_pos hk0] at hkv
        rcases List.mem_cons.1 hkv with rfl | hm
        · by_cases hp : typePriority e.type < typePriority v0.type
          · rw [if_pos hp]
            exact ⟨by rw [hk0, hk], he⟩
          · rw [if_neg hp]
            exact hb _ (List.mem_cons_self _ _)
        · exact hb _ (List.mem_cons_of_mem _ hm)
      · rw [if_neg hk0] at hkv
        rcases List.mem_cons.1 hkv with rfl | hm
        · exact hb _ (List.mem_cons_self _ _)
        · exact ih k e (fun x hx => hb x (List.mem_cons_of_mem _ hx)) hk he kv hm

/-- The fold of the dedup loop keeps the dictionary invariant. -/
theorem foldl_aggStep_good (cp : String) :
    ∀ (errs : List AnalysisError) (b : List ((String × Nat) × AnalysisError)),
      (∀ kv ∈ b, kv.1 = (kv.2.file, kv.2.line) ∧ discardPath kv.2.file = false) →
      ∀ kv ∈ errs.foldl (aggStep cp) b,
        kv.1 = (kv.2.file, kv.2.line) ∧ discardPath kv.2.file = false := by
  intro errs
  induction errs with
  | nil => intro b hb; exact hb
  | cons e es ih =>
      intro b hb
      rw [List.foldl_cons]
      apply ih
      rw [aggStep_eq]
      by_cases hd : discardPath (normalizeFile cp e.file) = true
      · rw [if_pos hd]
        exact hb
      · rw [if_neg hd]
        exact goodEntry_insertBest b _ _ hb rfl (by simpa using hd)

/-- The fold of the dedup loop keeps the stored keys distinct. -/
theorem foldl_aggStep_nodup (cp : String) :
    ∀ (errs : List AnalysisError) (b : List ((String × Nat) × AnalysisError)),
      (b.map Prod.fst).Nodup →
      ((errs.foldl (aggStep cp) b).map Prod.fst).Nodup := by
  intro errs
  induction errs with
  | nil => intro b hb; exact hb
  | cons e es ih =>
      intro b hb
      rw [List.foldl_cons]
      apply ih
      rw [aggStep_eq]
      by_cases hd : discardPath (normalizeFile cp e.file) = true
      · rw [if_pos hd]
        exact hb
      · rw [if_neg hd]
        exact nodup_keys_insertBest b _ _ hb

/-- Distinct keys plus the dictionary invariant give pairwise distinct
`(file, line)` pairs on the stored values. -/
theorem values_pairwise (b : List ((String × Nat) × AnalysisError))
    (hnd : (b.map Prod.fst).Nodup)
    (hg : ∀ kv ∈ b, kv.1 = (kv.2.file, kv.2.line) ∧ discardPath kv.2.file = false) :
    (b.map (fun kv => kv.2)).Pairwise
      (fun a c => (a.file, a.line) ≠ (c.file, c.line)) := by
  induction b with
  | nil => simp
  | cons kv rest ih =>
      obtain ⟨k0, v0⟩ := kv
      rw [List.map_cons, List.nodup_cons] at hnd
      rw [List.map_cons]
      refine List.Pairwise.cons ?_
        (ih hnd.2 (fun x hx => hg x (List.mem_cons_of_mem _ hx)))
      intro c hc hEq
      obtain ⟨kv2, hkv2, rfl⟩ := List.mem_map.1 hc
      have g0 := hg (k0, v0) (List.mem_cons_self _ _)
      have g2 := hg kv2 (List.mem_cons_of_mem _ hkv2)
      apply hnd.1
      rw [g0.1, hEq, ← g2.1]
      exact List.mem_map.2 ⟨kv2, hkv2, rfl⟩

/-- Inserting a fresh key appends the pair at the end. -/
theorem insertBest_fresh :
    ∀ (b : List ((String × Nat) × AnalysisError)) (k : String × Nat)
      (e : AnalysisError), k ∉ b.map Prod.fst →
      insertBest b k e = b ++ [(k, e)] := by
  intro b
  induction b with
  | nil => intro k e _; rw [insertBest_nil]; rfl
  | cons kv0 rest ih =>
      intro k e h
      obtain ⟨k0, v0⟩ := kv0
      rw [List.map_cons, List.mem_cons] at h
      unfold insertBest
      rw [if_neg (fun hc => h (Or.inl hc.symm))]
      rw [ih k e (fun hc => h (Or.inr hc))]
      rfl

/-- Folding the dedup loop over records that are already normalized,
not discarded, key-fresh and pairwise key-distinct simply appends them
in order. -/
theorem foldl_aggStep_fresh (cp : String) :
    ∀ (es : List AnalysisError) (b : List ((String × Nat) × AnalysisError)),
      (∀ e ∈ es, normalizeFile cp e.file = e.file ∧ discardPath e.file = false) →
      (∀ e ∈ es, ((e.file : String), e.line) ∉ b.map Prod.fst) →
      es.Pairwise (fun a c => (a.file, a.line) ≠ (c.file, c.line)) →
      es.foldl (aggStep cp) b = b ++ es.map (fun e => ((e.file, e.line), e)) := by
  intro es
  induction es with
  | nil => intro b _ _ _; simp
  | cons e es2 ih =>
      intro b hn hf hpw
      rw [List.foldl_cons]
      have he := hn e (List.mem_cons_self _ _)
      have hpw2 := List.pairwise_cons.1 hpw
      have hstep : aggStep cp b e = b ++ [((e.file, e.line), e)] := by
        rw [aggStep_eq, he.1, if_neg (by simp [he.2])]
        have heta : ({ e with file := e.file } : AnalysisError) = e := rfl
        rw [heta]
        exact insertBest_fresh b _ e (hf e (List.mem_cons_self _ _))
      rw [hstep,
        ih (b ++ [((e.file, e.line), e)])
          (fun x hx => hn x (List.mem_cons_of_mem _ hx))
          (fun x hx => by
            rw [List.map_append, List.mem_append]
            rintro (hc | hc)
            · exact hf x (List.mem_cons_of_mem _ hx) hc
            · have : ((x.file : String), x.line) = (e.file, e.line) :=
                List.mem_singleton.1 hc
              exact hpw2.1 x hx this.symm)
          hpw2.2]
      simp

/-- Aggregation acts as the identity on a list that is already fully
aggregated: normalized stable paths, no discarded paths, pairwise
distinct keys and length within the cap. -/
theorem aggregate_fixed (cp : String) (m : Nat) (out : List AnalysisError)
    (hnorm : ∀ e ∈ out, normalizeFile cp e.file = e.file)
    (hdisc : ∀ e ∈ out, discardPath e.file = false)
    (hpw : out.Pairwise (fun a c => (a.file, a.line) ≠ (c.file, c.line)))
    (hlen : out.length ≤ m) :
    aggregate cp m out = out := by
  unfold aggregate
  rw [foldl_aggStep_fresh cp out []
    (fun e he => ⟨hnorm e he, hdisc e he⟩)
    (fun e _ => List.not_mem_nil _)
    hpw]
  rw [List.nil_append, List.map_map]
  have hfun : ((fun kv : (String × Nat) × AnalysisError => kv.2) ∘
      (fun e : AnalysisError => ((e.file, e.line), e))) = id :=
    funext (fun _ => rfl)
  rw [hfun, List.map_id]
  exact List.take_of_length_le hlen

/-- C8 counterexample: path normalization is not idempotent.  Stripping
`/tmp/repo_clone/` from `/tmp/rep /tmp/repo_clone/ one/x.py` (written
without the spaces) re-creates the clone-root prefix, so a second
aggregation round strips it again and changes the output. -/
theorem C8_counterexample :
    aggregate "/tmp/repo_clone" 50
        (aggregate "/tmp/repo_clone" 50
          [⟨"/tmp/repo_cl/tmp/repo_clone/one/x.py", 1, "m", .LOGIC, "s"⟩])
      ≠ aggregate "/tmp/repo_clone" 50
          [⟨"/tmp/repo_cl/tmp/repo_clone/one/x.py", 1, "m", .LOGIC, "s"⟩] := by
  decide

/-- C8 amended: the aggregation stage is idempotent on every input
whose aggregated output has normalization-stable paths (in particular
whenever no output path still contains the clone-root substring);
without that proviso a path that regains the root prefix after one
stripping round — as in the counterexample — is stripped again on
re-application. -/
theorem C8_amended_idempotent (cp : String) (m : Nat)
    (errs : List AnalysisError)
    (h : ∀ e ∈ aggregate cp m errs, normalizeFile cp e.file = e.file) :
    aggregate cp m (aggregate cp m errs) = aggregate cp m errs := by
  have hrepr : aggregate cp m errs
      = ((errs.foldl (aggStep cp) []).map (fun kv => kv.2)).take m := rfl
  have hgood := foldl_aggStep_good cp errs [] (by intro kv hkv; cases hkv)
  have hnodup := foldl_aggStep_nodup cp errs [] (by simp)
  have hpwB := values_pairwise _ hnodup hgood
  have hsub : List.Sublist (aggregate cp m errs)
      ((errs.foldl (aggStep cp) []).map (fun kv => kv.2)) := by
    rw [hrepr]
    exact List.take_sublist m _
  apply aggregate_fixed
  · exact h
  · intro e he
    obtain ⟨kv, hkv, rfl⟩ := List.mem_map.1 (hsub.subset he)
    exact (hgood kv hkv).2
  · exact hpwB.sublist hsub
  · rw [hrepr, List.length_take]
    exact Nat.min_le_left _ _

/-- Witness for `C8_amended_idempotent` on a stable concrete input. -/
theorem C8_witness :
    aggregate "/tmp/repo_clone" 50
        (aggregate "/tmp/repo_clone" 50 [⟨"a.py", 3, "m", .LOGIC, "regex"⟩])
      = aggregate "/tmp/repo_clone" 50 [⟨"a.py", 3, "m", .LOGIC, "regex"⟩] :=
  C8_amended_idempotent "/tmp/repo_clone" 50 [⟨"a.py", 3, "m", .LOGIC, "regex"⟩]
    (by decide)

/-! ## C9: the `line >= 1` invariant -/

/-- Pass 1 only records lines guarded by `e.lineno or 1`. -/
theorem syntaxPass1_lines (relPath : String) (tok : TokOutcome) :
    ∀ e ∈ syntaxPass1 relPath tok, 1 ≤ e.line := by
  unfold syntaxPass1
  cases tok with
  | tokOk => intro e he; cases he
  | tokIndentErr n m =>
      exact line_ge_addError (fun e he => by cases he) (pyLinenoOr1_pos n)
  | tokError => intro e he; cases he

/-- Pass 2 preserves the line bound. -/
theorem syntaxPass2_lines (relPath : String) (comp : CompileOutcome)
    (errs : List AnalysisError) (h : ∀ e ∈ errs, 1 ≤ e.line) :
    ∀ e ∈ syntaxPass2 relPath comp errs, 1 ≤ e.line := by
  unfold syntaxPass2
  cases comp with
  | ok => exact h
  | indentErr n m => exact line_ge_addError h (pyLinenoOr1_pos n)
  | syntaxErr n m => exact line_ge_addError h (pyLinenoOr1_pos n)

/-- Pass 3 preserves the line bound when the `py_compile` subprocess
reports a positive line. -/
theorem syntaxPass3_lines (clonePath : String)
    (pyc : Option (String × Nat × String)) (errs : List AnalysisError)
    (h : ∀ e ∈ errs, 1 ≤ e.line)
    (hpyc : ∀ rp ln msg, pyc = some (rp, ln, msg) → 1 ≤ ln) :
    ∀ e ∈ syntaxPass3 clonePath pyc errs, 1 ≤ e.line := by
  unfold syntaxPass3
  cases pyc with
  | none => exact h
  | some v =>
      obtain ⟨rp, ln, msg⟩ := v
      exact line_ge_addError h (hpyc rp ln msg rfl)

/-- One pass-4 step preserves the line bound: block-scan findings sit
at `block_start + (lineno or 1)` or `block_start + 1 + (lineno or 1)`,
both at least 1. -/
theorem blockScanStep_lines (bcomp : String → CompileOutcome) (rel : String)
    (lines : List String) (st : Nat × List AnalysisError) (p : Nat × String)
    (hinv : ∀ e ∈ st.2, 1 ≤ e.line) :
    ∀ e ∈ (blockScanStep bcomp rel lines st p).2, 1 ≤ e.line := by
  unfold blockScanStep
  dsimp only
  repeat' split
  all_goals
    first
      | exact hinv
      | exact line_ge_addError hinv
          (Nat.le_trans (pyLinenoOr1_pos _) (Nat.le_add_left _ _))

/-- Pass 4 preserves the line bound. -/
theorem blockScan_lines (bcomp : String → CompileOutcome) (rel : String)
    (lines : List String) (errs : List AnalysisError)
    (h : ∀ e ∈ errs, 1 ≤ e.line) :
    ∀ e ∈ blockScan bcomp rel lines errs, 1 ≤ e.line := by
  unfold blockScan
  exact foldl_inv_mem (blockScanStep bcomp rel lines)
    (fun st => ∀ e ∈ st.2, 1 ≤ e.line) (enumFromN 0 lines) (0, errs)
    (fun s a _ hI => blockScanStep_lines bcomp rel lines s a hI) h

/-- Every per-line pattern-scanner finding carries its enumerated line
number. -/
theorem regexLineChecks_line (fs : String → Bool) (ft rel : String)
    (i : Nat) (raw : String) :
    ∀ e ∈ regexLineChecks fs ft rel i raw, e.line = i := by
  unfold regexLineChecks
  dsimp only
  split
  · intro e he; cases he
  · intro e he
    obtain ⟨o, _, heq⟩ := List.mem_filterMap.1 he
    cases o with
    | none => exact absurd heq (by simp)
    | some mt =>
        rw [Option.map_some'] at heq
        obtain rfl := (Option.some.inj heq).symm
        rfl

/-- The pattern scanner only emits findings with `line >= 1`. -/
theorem regexDetectFile_lines (fs : String → Bool) (rel content : String) :
    ∀ e ∈ regexDetectFile fs rel content, 1 ≤ e.line := by
  unfold regexDetectFile
  intro e he
  obtain ⟨l2, hl2, he2⟩ := List.mem_flatten.1 he
  obtain ⟨⟨i, raw⟩, hmem, rfl⟩ := List.mem_map.1 hl2
  have hline := regexLineChecks_line fs content rel i raw e he2
  have hi := ((mem_enumFromN (pyReadlines content) 1 i raw).1 hmem).1
  omega

/-- The ruff branch only emits findings at the reported rows. -/
theorem ruffJsonErrors_lines (cp : String) (items : List RuffItem)
    (h : ∀ it ∈ items, 1 ≤ it.row) :
    ∀ e ∈ ruffJsonErrors cp items, 1 ≤ e.line := by
  intro e he
  unfold ruffJsonErrors at he
  obtain ⟨it, hit, rfl⟩ := List.mem_map.1 he
  exact h it (List.mem_of_mem_filter hit)

/-- The pyflakes branch only emits findings at the reported lines. -/
theorem pyflakesErrors_lines (cp : String)
    (items : List (String × Nat × String))
    (h : ∀ it ∈ items, 1 ≤ it.2.1) :
    ∀ e ∈ pyflakesErrors cp items, 1 ≤ e.line := by
  intro e he
  unfold pyflakesErrors at he
  obtain ⟨it, hit, rfl⟩ := List.mem_map.1 he
  exact h it hit

/-- `d[k] = v` keeps every stored line positive when `v` is. -/
theorem dictInsert_lines (d : List (String × Nat)) (k : String) (v : Nat)
    (hd : ∀ p ∈ d, 1 ≤ p.2) (hv : 1 ≤ v) :
    ∀ p ∈ dictInsert d k v, 1 ≤ p.2 := by
  unfold dictInsert
  split
  · intro p hp
    obtain ⟨q, hq, rfl⟩ := List.mem_map.1 hp
    split
    · exact hv
    · exact hd q hq
  · intro p hp
    rcases List.mem_append.1 hp with h1 | h1
    · exact hd p h1
    · obtain rfl := List.mem_singleton.1 h1
      exact hv

/-- Imported-name lines come from node lines. -/
theorem collectImported_lines (nodes : List PyNode)
    (h : ∀ n ∈ nodes, 1 ≤ nodeLine n) :
    ∀ p ∈ collectImported nodes, 1 ≤ p.2 := by
  unfold collectImported
  refine foldl_inv_mem _ (fun d : List (String × Nat) => ∀ p ∈ d, 1 ≤ p.2) nodes []
    ?_ (fun p hp => by cases hp)
  intro d n hn hd
  cases n with
  | importN names ln =>
      refine foldl_inv_mem _ (fun d : List (String × Nat) => ∀ p ∈ d, 1 ≤ p.2) names d ?_ hd
      intro d2 a _ hd2
      exact dictInsert_lines d2 _ ln hd2 (h _ hn)
  | importFromN names ln =>
      refine foldl_inv_mem _ (fun d : List (String × Nat) => ∀ p ∈ d, 1 ≤ p.2) names d ?_ hd
      intro d2 a _ hd2
      split
      · exact hd2
      · exact dictInsert_lines d2 _ ln hd2 (h _ hn)
  | nameN id ln => exact hd
  | attributeN b ln => exact hd
  | exceptHandlerN b ln => exact hd
  | binOpN op l r ln => exact hd
  | otherN ln => exact hd

/-- The AST lint fallback only emits findings at import lines. -/
theorem astLintFile_lines (rel : String) (nodes : List PyNode)
    (h : ∀ n ∈ nodes, 1 ≤ nodeLine n) :
    ∀ e ∈ astLintFile rel nodes, 1 ≤ e.line := by
  intro e he
  unfold astLintFile at he
  dsimp only at he
  obtain ⟨p, hp, rfl⟩ := List.mem_map.1 he
  exact collectImported_lines nodes h p (List.mem_of_mem_filter hp)

/-- Per-node static checks sit exactly at the node's line. -/
theorem staticNodeChecks_lines (rel : String) (n : PyNode) :
    ∀ e ∈ staticNodeChecks rel n, e.line = nodeLine n := by
  unfold staticNodeChecks
  cases n with
  | exceptHandlerN b ln =>
      cases b with
      | false =>
          intro e he
          obtain rfl := List.mem_singleton.1 he
          rfl
      | true => intro e he; cases he
  | binOpN op l r ln =>
      intro e he
      rcases List.mem_append.1 he with h1 | h1 <;>
        · revert h1
          split
          · intro h1
            obtain rfl := List.mem_singleton.1 h1
            rfl
          · intro h1; cases h1
  | importN names ln => intro e he; cases he
  | importFromN names ln => intro e he; cases he
  | nameN id ln => intro e he; cases he
  | attributeN b ln => intro e he; cases he
  | otherN ln => intro e he; cases he

/-- The static analyzer only emits findings with `line >= 1`. -/
theorem staticAnalysisFile_lines (rel : String) (nodes : List PyNode)
    (h : ∀ n ∈ nodes, 1 ≤ nodeLine n) :
    ∀ e ∈ staticAnalysisFile rel nodes, 1 ≤ e.line := by
  intro e he
  unfold staticAnalysisFile at he
  dsimp only at he
  rcases List.mem_append.1 he with h1 | h1
  · obtain ⟨p, hp, rfl⟩ := List.mem_map.1 h1
    exact collectImported_lines nodes h p (List.mem_of_mem_filter hp)
  · obtain ⟨l2, hl2, he2⟩ := List.mem_flatten.1 h1
    obtain ⟨n, hn, rfl⟩ := List.mem_map.1 hl2
    rw [staticNodeChecks_lines rel n e he2]
    exact h n hn

/-- The dynamic-output loop only emits findings at the reported lines. -/
theorem processDynAux_lines (rel : String) :
    ∀ (records : List DynRecord) (seen : List (String × Nat × String)),
      (∀ r ∈ records, 1 ≤ r.line) →
      ∀ e ∈ processDynAux rel seen records, 1 ≤ e.line := by
  intro records
  induction records with
  | nil => intro seen _ e he; cases he
  | cons r rs ih =>
      intro seen h e he
      unfold processDynAux at he
      split at he
      · exact ih seen (fun x hx => h x (List.mem_cons_of_mem _ hx)) e he
      · rcases List.mem_cons.1 he with rfl | he2
        · exact h r (List.mem_cons_self _ _)
        · exact ih _ (fun x hx => h x (List.mem_cons_of_mem _ hx)) e he2

/-- C9: every finding produced by the syntax check (under the oracle
guarantee that `py_compile`'s stderr reports positive lines), by the
pattern scanner (unconditionally), by the lint branches (ruff rows /
pyflakes lines / AST-lint import lines positive), by the static
analyzer and by the dynamic executor carries `line >= 1`, and the
`FixResult` created from such a finding keeps `line >= 1`. -/
theorem C9_line_ge_one :
    (∀ tok comp pyc bcomp cp rel lines,
      (∀ rp ln msg, pyc = some (rp, ln, msg) → 1 ≤ ln) →
      ∀ e ∈ runSyntaxCheckFile tok comp pyc bcomp cp rel lines, 1 ≤ e.line) ∧
    (∀ fs rel content, ∀ e ∈ regexDetectFile fs rel content, 1 ≤ e.line) ∧
    (∀ cp items, (∀ it ∈ items, 1 ≤ it.row) →
      ∀ e ∈ ruffJsonErrors cp items, 1 ≤ e.line) ∧
    (∀ cp items, (∀ it ∈ items, 1 ≤ it.2.1) →
      ∀ e ∈ pyflakesErrors cp items, 1 ≤ e.line) ∧
    (∀ rel nodes, (∀ n ∈ nodes, 1 ≤ nodeLine n) →
      ∀ e ∈ astLintFile rel nodes, 1 ≤ e.line) ∧
    (∀ rel nodes, (∀ n ∈ nodes, 1 ≤ nodeLine n) →
      ∀ e ∈ staticAnalysisFile rel nodes, 1 ≤ e.line) ∧
    (∀ rel records, (∀ r ∈ records, 1 ≤ r.line) →
      ∀ e ∈ processDynOutput rel records, 1 ≤ e.line) ∧
    (∀ (e : AnalysisError) (d : String), 1 ≤ e.line →
      1 ≤ (makeFix e d).line) := by
  refine ⟨?_, ?_, ?_, ?_, ?_, ?_, ?_, ?_⟩
  · intro tok comp pyc bcomp cp rel lines hpyc
    exact blockScan_lines bcomp rel lines _
      (syntaxPass3_lines cp pyc _
        (syntaxPass2_lines rel comp _ (syntaxPass1_lines rel tok)) hpyc)
  · exact regexDetectFile_lines
  · exact ruffJsonErrors_lines
  · exact pyflakesErrors_lines
  · exact astLintFile_lines
  · exact staticAnalysisFile_lines
  · intro rel records h
    exact processDynAux_lines rel records [] h
  · intro e d h
    show (1 : Int) ≤ (e.line : Int)
    exact_mod_cast h

/-- Witness for `C9_line_ge_one`: the syntax-check conjunct applied to
the §8 example file's oracle outcomes, whose `py_compile` triple
reports line 1, and the dynamic conjunct applied to a concrete record. -/
theorem C9_witness :
    ((⟨"test.py", 2, "IndentationError: unexpected indent",
        BugType.INDENTATION, "block_scan"⟩ : AnalysisError) ∈ exampleSyntaxCheck
      ∧ 1 ≤ (⟨"test.py", 2, "IndentationError: unexpected indent",
          BugType.INDENTATION, "block_scan"⟩ : AnalysisError).line)
    ∧ (1 : Int) ≤ (makeFix ⟨"a.py", 7, "ZeroDivisionError: boom", .LOGIC,
        "dynamic"⟩ "fix it").line := by
  refine ⟨⟨by decide, ?_⟩, ?_⟩
  · exact C9_line_ge_one.1 .tokOk (.syntaxErr 1 "expected ':'")
      (some ("/tmp/repo_clone/test.py", 1, "invalid syntax"))
      cpythonBlockOutcomes "/tmp/repo_clone" "test.py" exampleLines
      (by intro rp ln msg hsome; cases hsome; decide)
      ⟨"test.py", 2, "IndentationError: unexpected indent",
        BugType.INDENTATION, "block_scan"⟩ (by decide)
  · exact C9_line_ge_one.2.2.2.2.2.2.2
      ⟨"a.py", 7, "ZeroDivisionError: boom", .LOGIC, "dynamic"⟩ "fix it"
      (by decide)
